import Mathlib

/-!
Shallow embedding of `src/kernel/src/tdx/tdcall/tdx_tdcall.rs`, the guest-side
TDCALL/TDVMCALL layer of the td-partitioning SVSM, together with proofs of the
spec's testable properties about it.

Machine integers (`u64`, `u16`, ...) are embedded as `Nat`; truncating casts
are made explicit with `% 2 ^ w` or masks where the source performs them.
The TDX module / host VMM is embedded as an explicit environment: a function
from the register block the guest passes to the response the guest observes.
Fallible operations return `Except` / `Option`; the `panic!` terminations of
the source are reified as explicit outcome constructors carrying the values
the source's panic message names.
-/

/-! ## Constants from the source file -/

/-- Source: `const IO_READ: u64 = 0;` -/
def IO_READ : Nat := 0

/-- Source: `const IO_WRITE: u64 = 1;` -/
def IO_WRITE : Nat := 1

/-- Source: `const PAGE_SIZE_4K: u64 = 4 * 1024;` -/
def PAGE_SIZE_4K : Nat := 4 * 1024

/-- Source: `const PAGE_SIZE_2M: u64 = 2 * 1024 * 1024;` -/
def PAGE_SIZE_2M : Nat := 2 * 1024 * 1024

/-! ## Constants and types declared outside `src/` (in the `super` module) -/

/-- Modelled from the spec: success is status 0 for the TDCALL family
("0 means success for both call families"). -/
def TDCALL_STATUS_SUCCESS : Nat := 0

/-- Modelled from the spec: success is status 0 for the TDVMCALL family. -/
def TDVMCALL_STATUS_SUCCESS : Nat := 0

/-- Modelled from the spec: the leaf-specific status code for "page size
mismatch" returned by `TDG.MEM.PAGE.ACCEPT`; its numeric value is the TDX
module's, and the claims only rely on it being a fixed code distinct from
the "already accepted" one. The constant itself is declared outside `src/`. -/
def TDCALL_STATUS_PAGE_SIZE_MISMATCH : Nat := 0xC0000B0B00000000

/-- Modelled from the spec: the leaf-specific status code for "page already
accepted" returned by `TDG.MEM.PAGE.ACCEPT`; declared outside `src/`. -/
def TDCALL_STATUS_PAGE_ALREADY_ACCEPTED : Nat := 0x00000B0A00000000

/-- Modelled from the spec: the TDCALL leaf number of `TDG.VP.INFO`;
declared outside `src/`. -/
def TDCALL_TDINFO : Nat := 1

/-- Modelled from the spec: the TDVMCALL sub-function number of
`Instruction.HLT`; declared outside `src/`. -/
def TDVMCALL_HALT : Nat := 12

/-- Modelled from the spec: the TDVMCALL sub-function number of
`Instruction.IO`; declared outside `src/`. -/
def TDVMCALL_IO : Nat := 30

/-- Modelled from the spec: the TDVMCALL sub-function number of `MapGPA`;
declared outside `src/`. -/
def TDVMCALL_MAPGPA : Nat := 0x10001

/-- Modelled from the spec: the typed error of the TDCALL family (§4.2 of the
spec). Its declaration lives outside `src/`; the spec's status translator
splits a nonzero status into a recognized general-class reason and an opaque
leaf-specific code retained verbatim, which is exactly the shape the
acceptance engine in `src/` matches on (`TdCallError::LeafSpecific`). -/
inductive TdCallError where
  | general (reason : Nat)
  | LeafSpecific (code : Nat)
deriving DecidableEq, Repr

/-- Modelled from the spec: the status translator for the TDCALL family
(`ret.into()` in the source; the `From` impl lives outside `src/`).
General-class reasons are decoded from the high bits of the status; every
other nonzero status keeps its leaf-specific code verbatim. -/
def tdCallErrorOfStatus (s : Nat) : TdCallError :=
  if s >>> 32 = 0x80000200 ∨ s >>> 32 = 0xC0000100 then
    TdCallError.general (s >>> 32)
  else
    TdCallError.LeafSpecific s

/-! ## The page-acceptance engine -/

/-- One page-accept attempt issued by the engine: the (untagged) physical
address handed to `tdcall_accept_page` and the page size being attempted. -/
structure Attempt where
  addr : Nat
  size : Nat
deriving DecidableEq, Repr

/-- Environment for `tdcall_accept_page`: the TDX module's response, as the
translated `TdCallError`, to an accept request carrying the given raw `rcx`
value (address with the level bit OR-ed in). `none` means status 0 (success),
`some e` means the nonzero status translated to `e` by `ret.into()`. -/
def AcceptEnv : Type := Nat → Option TdCallError

/-- Source `tdcall_accept_page(address)`: builds `TdcallArgs` with
`rax = TDCALL_TDACCEPTPAGE`, `rcx = address`, issues the TDCALL and returns
`Err(ret.into())` on a nonzero status. The environment abstracts the module's
response as the already-translated error. -/
def tdcall_accept_page (env : AcceptEnv) (address : Nat) : Option TdCallError :=
  env address

/-- Outcome of `td_accept_pages`: normal return, or a `panic!` naming the
failing address and the attempted page size (the two values interpolated
into the source's panic message). -/
inductive PagesOutcome where
  | ok
  | panicked (addr size : Nat)
deriving DecidableEq, Repr

/-- Source `td_accept_pages(address, pages, page_size)` specialised to
`page_size == PAGE_SIZE_4K`, i.e. the body of the inner 4KB loop the source
reaches through its recursive call. `accept_level` is 0, so the raw value
passed to `tdcall_accept_page` is `accept_addr ||| 0`. The iteration
`accept_addr = address + i * page_size` is rendered by shifting `address`
by one page per recursive step. Returns the list of attempts (in order) and
the outcome. The theorem `td_accept_pages_4k_spec_eq` below proves this
specialisation equal to the general function at `PAGE_SIZE_4K`, certifying
that the two Lean functions together embed the source's single recursive
function. -/
def td_accept_pages_4k (env : AcceptEnv) : Nat → Nat → List Attempt × PagesOutcome
  | _, 0 => ([], PagesOutcome.ok)
  | address, n + 1 =>
    let accept_addr := address
    match tdcall_accept_page env (accept_addr ||| 0) with
    | none =>
      let r := td_accept_pages_4k env (address + PAGE_SIZE_4K) n
      (⟨accept_addr, PAGE_SIZE_4K⟩ :: r.1, r.2)
    | some e =>
      match e with
      | TdCallError.LeafSpecific code =>
        if code = TDCALL_STATUS_PAGE_SIZE_MISMATCH then
          ([⟨accept_addr, PAGE_SIZE_4K⟩], PagesOutcome.panicked accept_addr PAGE_SIZE_4K)
        else if code = TDCALL_STATUS_PAGE_ALREADY_ACCEPTED then
          let r := td_accept_pages_4k env (address + PAGE_SIZE_4K) n
          (⟨accept_addr, PAGE_SIZE_4K⟩ :: r.1, r.2)
        else
          ([⟨accept_addr, PAGE_SIZE_4K⟩], PagesOutcome.panicked accept_addr PAGE_SIZE_4K)
      | TdCallError.general _ =>
        ([⟨accept_addr, PAGE_SIZE_4K⟩], PagesOutcome.panicked accept_addr PAGE_SIZE_4K)

/-- Source `td_accept_pages(address, pages, page_size)`:

```rust
for i in 0..pages {
    let accept_addr = address + i * page_size;
    let accept_level = if page_size == PAGE_SIZE_2M { 1 } else { 0 };
    match tdcall_accept_page(accept_addr | accept_level) {
        Ok(()) => {}
        Err(e) => {
            if let TdCallError::LeafSpecific(error_code) = e {
                if error_code == TDCALL_STATUS_PAGE_SIZE_MISMATCH {
                    if page_size == PAGE_SIZE_2M {
                        td_accept_pages(accept_addr, 512, PAGE_SIZE_4K);
                        continue;
                    }
                } else if error_code == TDCALL_STATUS_PAGE_ALREADY_ACCEPTED {
                    continue;
                }
            }
            panic!("Accept Page Error: 0x{:x}, page_size: {}\n", accept_addr, page_size);
        }
    }
}
```

Arguments are `address pages page_size` in source order; the loop index is
rendered by shifting `address` one `page_size` per recursive step, and the
source's recursive call `td_accept_pages(accept_addr, 512, PAGE_SIZE_4K)` is
rendered by `td_accept_pages_4k` (proved equal to this function at
`PAGE_SIZE_4K` by `td_accept_pages_4k_spec_eq`). A panic inside the inner
4KB pass aborts the whole call, as in the source. -/
def td_accept_pages (env : AcceptEnv) : Nat → Nat → Nat → List Attempt × PagesOutcome
  | _, 0, _ => ([], PagesOutcome.ok)
  | address, n + 1, page_size =>
    let accept_addr := address
    let accept_level : Nat := if page_size = PAGE_SIZE_2M then 1 else 0
    match tdcall_accept_page env (accept_addr ||| accept_level) with
    | none =>
      let r := td_accept_pages env (address + page_size) n page_size
      (⟨accept_addr, page_size⟩ :: r.1, r.2)
    | some e =>
      match e with
      | TdCallError.LeafSpecific code =>
        if code = TDCALL_STATUS_PAGE_SIZE_MISMATCH then
          if page_size = PAGE_SIZE_2M then
            let inner := td_accept_pages_4k env accept_addr 512
            match inner.2 with
            | PagesOutcome.panicked a s =>
              (⟨accept_addr, page_size⟩ :: inner.1, PagesOutcome.panicked a s)
            | PagesOutcome.ok =>
              let r := td_accept_pages env (address + page_size) n page_size
              (⟨accept_addr, page_size⟩ :: inner.1 ++ r.1, r.2)
          else
            ([⟨accept_addr, page_size⟩], PagesOutcome.panicked accept_addr page_size)
        else if code = TDCALL_STATUS_PAGE_ALREADY_ACCEPTED then
          let r := td_accept_pages env (address + page_size) n page_size
          (⟨accept_addr, page_size⟩ :: r.1, r.2)
        else
          ([⟨accept_addr, page_size⟩], PagesOutcome.panicked accept_addr page_size)
      | TdCallError.general _ =>
        ([⟨accept_addr, page_size⟩], PagesOutcome.panicked accept_addr page_size)

/-- Outcome of `td_accept_memory`: normal return, a panic propagated from
`td_accept_pages` (naming failing address and page size), or the
`"Accept Memory Error"` panic naming the original `address` and `len`. -/
inductive MemOutcome where
  | ok
  | pagePanic (addr size : Nat)
  | memPanic (addr len : Nat)
deriving DecidableEq, Repr

/-- Loop body of source `td_accept_memory(address, len)`:

```rust
let mut start = address;
let end = address + len;
while start < end {
    let remaining = end - start;
    if remaining >= PAGE_SIZE_2M && (start & (PAGE_SIZE_2M - 1)) == 0 {
        let npages = remaining >> 21;
        td_accept_pages(start, npages, PAGE_SIZE_2M);
        start += npages << 21;
    } else if remaining >= PAGE_SIZE_4K && (start & (PAGE_SIZE_4K - 1)) == 0 {
        td_accept_pages(start, 1, PAGE_SIZE_4K);
        start += PAGE_SIZE_4K;
    } else {
        panic!("Accept Memory Error: 0x{:x}, length: {}\n", address, len);
    }
}
```

The `while` loop is rendered with a fuel parameter; every executed iteration
advances `start` by at least `PAGE_SIZE_4K`, so any fuel of at least `len`
reaches the loop's exit (`td_accept_memory` passes `len`, and the proofs
below discharge sufficiency). Returns the attempts issued, the final value
of the cursor `start`, and the outcome. -/
def td_accept_memory_loop (env : AcceptEnv) (address len : Nat) :
    Nat → Nat → List Attempt × Nat × MemOutcome
  | start, 0 => ([], start, MemOutcome.ok)
  | start, fuel + 1 =>
    if start < address + len then
      let remaining := address + len - start
      if remaining ≥ PAGE_SIZE_2M ∧ start &&& (PAGE_SIZE_2M - 1) = 0 then
        let npages := remaining >>> 21
        let r := td_accept_pages env start npages PAGE_SIZE_2M
        match r.2 with
        | PagesOutcome.ok =>
          let rest := td_accept_memory_loop env address len (start + (npages <<< 21)) fuel
          (r.1 ++ rest.1, rest.2.1, rest.2.2)
        | PagesOutcome.panicked a s => (r.1, start, MemOutcome.pagePanic a s)
      else if remaining ≥ PAGE_SIZE_4K ∧ start &&& (PAGE_SIZE_4K - 1) = 0 then
        let r := td_accept_pages env start 1 PAGE_SIZE_4K
        match r.2 with
        | PagesOutcome.ok =>
          let rest := td_accept_memory_loop env address len (start + PAGE_SIZE_4K) fuel
          (r.1 ++ rest.1, rest.2.1, rest.2.2)
        | PagesOutcome.panicked a s => (r.1, start, MemOutcome.pagePanic a s)
      else
        ([], start, MemOutcome.memPanic address len)
    else
      ([], start, MemOutcome.ok)

/-- Source `td_accept_memory(address, len)`: runs the acceptance loop from
`start = address` with `end = address + len`. Fuel `len` is sufficient since
each iteration advances the cursor by at least one 4KB page. -/
def td_accept_memory (env : AcceptEnv) (address len : Nat) :
    List Attempt × Nat × MemOutcome :=
  td_accept_memory_loop env address len address len

/-- Environment in which every accept attempt succeeds (status 0). -/
def acceptAllOk : AcceptEnv := fun _ => none


/-! ## The shared-address-space resolver -/

/-- Modelled from the spec: the monitor-call register block declared outside
`src/` ("operation selector plus up to 4 data registers, passed by reference
and overwritten in place with results"); field names follow the registers
the source reads (`rax`, `rcx`, `rdx`, `r8`, `r9`, `r10`). -/
structure TdcallArgs where
  rax : Nat := 0
  rcx : Nat := 0
  rdx : Nat := 0
  r8 : Nat := 0
  r9 : Nat := 0
  r10 : Nat := 0
deriving DecidableEq, Repr

/-- Environment for `td_call`: the TDX module's response to a monitor call,
as the raw status and the overwritten output register block. -/
def TdcallEnv : Type := TdcallArgs → Nat × TdcallArgs

/-- Source `TdInfo` (gpaw, attributes, max/current vcpu counts; the reserved
words carry no information and are omitted). -/
structure TdInfo where
  gpaw : Nat := 0
  attributes : Nat := 0
  max_vcpus : Nat := 0
  num_vcpus : Nat := 0
deriving DecidableEq, Repr

/-- Source `tdcall_get_td_info()`: issues `TDG.VP.INFO` and decodes the
output registers; `gpaw = rcx & 0x3f`, `attributes = rdx`,
`max_vcpus = (r8 >> 32) as u32`, `num_vcpus = r8 as u32`. The `as u32`
truncations are rendered with `% 2 ^ 32`. -/
def tdcall_get_td_info (env : TdcallEnv) : Except TdCallError TdInfo :=
  let args : TdcallArgs := { rax := TDCALL_TDINFO }
  let ret := (env args).1
  let out := (env args).2
  if ret ≠ TDCALL_STATUS_SUCCESS then
    Except.error (tdCallErrorOfStatus ret)
  else
    Except.ok
      { gpaw := out.rcx &&& 0x3f
        attributes := out.rdx
        max_vcpus := (out.r8 >>> 32) % 2 ^ 32
        num_vcpus := out.r8 % 2 ^ 32 }

/-- Source `td_shared_mask()`: reads the GPA width from `TDG.VP.INFO`
(`gpaw & 0x3f` cast to `u8`, rendered with `% 2 ^ 8`), accepts only 48 or
52, and returns `1u64 << (gpaw - 1)`. -/
def td_shared_mask (env : TdcallEnv) : Option Nat :=
  match tdcall_get_td_info env with
  | Except.error _ => none
  | Except.ok td_info =>
    let gpaw := (td_info.gpaw &&& 0x3f) % 2 ^ 8
    if gpaw = 48 ∨ gpaw = 52 then
      some (1 <<< (gpaw - 1))
    else
      none

/-- Result of the lazily-computed `SHARED_MASK` static: either the cached
mask value, or the fatal termination `lazy_static!`'s
`.expect("Fail to get the shared mask of TD")` performs when
`td_shared_mask` returns `None`. -/
inductive SharedMaskInit where
  | value (mask : Nat)
  | fatal
deriving DecidableEq, Repr

/-- Source `SHARED_MASK` static: `td_shared_mask().expect(...)`, with the
`expect` panic reified as `SharedMaskInit.fatal`. -/
def SHARED_MASK (env : TdcallEnv) : SharedMaskInit :=
  match td_shared_mask env with
  | some mask => SharedMaskInit.value mask
  | none => SharedMaskInit.fatal

/-! ## The service facade -/

/-- Modelled from the spec: the VMM-call register block declared outside
`src/` (operation sub-selector in `r11` plus parameter slots `r12`-`r15`,
with `..Default::default()` zeroing the rest). -/
structure TdVmcallArgs where
  r10 : Nat := 0
  r11 : Nat := 0
  r12 : Nat := 0
  r13 : Nat := 0
  r14 : Nat := 0
  r15 : Nat := 0
deriving DecidableEq, Repr

/-- Environment for `td_vmcall`: the host VMM's response to an exit-to-host
call, as the raw status and the overwritten output register block. -/
def TdVmcallEnv : Type := TdVmcallArgs → Nat × TdVmcallArgs

/-- Source `tdvmcall_halt()`: reads `RFLAGS` (the `pushfq; pop` asm block,
whose result is the `rflags` parameter here), computes
`interrupt_blocked = if rflags & 0x200 == 0 { 1 } else { 0 }`, and issues
the HLT vmcall with `r11 = TDVMCALL_HALT`, `r12 = interrupt_blocked`,
discarding the status. Returns the argument block passed to `td_vmcall`. -/
def tdvmcall_halt (rflags : Nat) : TdVmcallArgs :=
  let interrupt_blocked : Nat := if rflags &&& 0x200 = 0 then 1 else 0
  { r11 := TDVMCALL_HALT, r12 := interrupt_blocked }

/-- The argument block `tdvmcall_io_read_8/16/32` builds for an IO read of
`size` bytes on `port`. -/
def tdvmcall_io_read_args (size port : Nat) : TdVmcallArgs :=
  { r11 := TDVMCALL_IO, r12 := size, r13 := IO_READ, r14 := port }

/-- Source `tdvmcall_io_read_8(port)`: issues the IO vmcall, invokes the
halt fallback `tdvmcall_halt()` when the status is nonzero, then falls
through and returns `(args.r11 & 0xff) as u8`. The returned pair is the
value together with whether the halt fallback was invoked. -/
def tdvmcall_io_read_8 (env : TdVmcallEnv) (port : Nat) : Nat × Bool :=
  let args := tdvmcall_io_read_args 1 port
  let ret := (env args).1
  let out := (env args).2
  (out.r11 &&& 0xff, ret != TDVMCALL_STATUS_SUCCESS)

/-- Source `tdvmcall_io_read_16(port)`: as `tdvmcall_io_read_8` with a
2-byte access and mask `0xffff`. -/
def tdvmcall_io_read_16 (env : TdVmcallEnv) (port : Nat) : Nat × Bool :=
  let args := tdvmcall_io_read_args 2 port
  let ret := (env args).1
  let out := (env args).2
  (out.r11 &&& 0xffff, ret != TDVMCALL_STATUS_SUCCESS)

/-- Source `tdvmcall_io_read_32(port)`: as `tdvmcall_io_read_8` with a
4-byte access and mask `0xffff_ffff`. -/
def tdvmcall_io_read_32 (env : TdVmcallEnv) (port : Nat) : Nat × Bool :=
  let args := tdvmcall_io_read_args 4 port
  let ret := (env args).1
  let out := (env args).2
  (out.r11 &&& 0xffffffff, ret != TDVMCALL_STATUS_SUCCESS)

/-- Bitwise complement `!share_bit` of the source, on `u64`: complement
within 64 bits, i.e. XOR against `2 ^ 64 - 1`. -/
def u64_not (x : Nat) : Nat := (2 ^ 64 - 1) ^^^ x

/-- The argument block source `tdvmcall_mapgpa(shared, paddr, length)` builds:
`paddr | share_bit` when converting to shared, `paddr & !share_bit` when
converting back to private, with `r11 = TDVMCALL_MAPGPA` and
`r13 = length`. `share_bit` is the dereferenced `SHARED_MASK` value. -/
def tdvmcall_mapgpa_args (share_bit : Nat) (shared : Bool) (paddr length : Nat) :
    TdVmcallArgs :=
  let paddr := if shared then paddr ||| share_bit else paddr &&& u64_not share_bit
  { r11 := TDVMCALL_MAPGPA, r12 := paddr, r13 := length }

/-- Source `tdvmcall_mapgpa(shared, paddr, length)`: issues the MapGPA
vmcall and returns `Err(ret.into())` on a nonzero status (the raw status is
kept as the error). -/
def tdvmcall_mapgpa (env : TdVmcallEnv) (share_bit : Nat) (shared : Bool)
    (paddr length : Nat) : Except Nat Unit :=
  let args := tdvmcall_mapgpa_args share_bit shared paddr length
  let ret := (env args).1
  if ret ≠ TDVMCALL_STATUS_SUCCESS then
    Except.error ret
  else
    Except.ok ()

/-- Concrete monitor-call environment reporting success with a GPA width
of 48 in the low bits of `rcx`. -/
def envGpaw48 : TdcallEnv := fun _ => (0, { rcx := 48 })

/-- Concrete environment in which every accept attempt reports the
leaf-specific "already accepted" code. -/
def envAlready : AcceptEnv :=
  fun _ => some (TdCallError.LeafSpecific TDCALL_STATUS_PAGE_ALREADY_ACCEPTED)

/-- Concrete environment in which every accept attempt fails with a
general-class (non-leaf-specific) error. -/
def envGeneralErr : AcceptEnv := fun _ => some (TdCallError.general 3)

/-- Concrete environment for the C3 witness: the 2MB accept attempt at
`0x200000` reports a page-size mismatch and every other attempt succeeds. -/
def envC3 : AcceptEnv := fun x =>
  if x = 0x200000 ||| 1 then
    some (TdCallError.LeafSpecific TDCALL_STATUS_PAGE_SIZE_MISMATCH)
  else
    none

/-! ## Helper lemmas about the acceptance engine -/

/-- Certification that `td_accept_pages_4k` is exactly the general
`td_accept_pages` at `page_size = PAGE_SIZE_4K`: together they embed the
source's single recursive function. -/
theorem td_accept_pages_4k_spec_eq (env : AcceptEnv) :
    ∀ n address, td_accept_pages_4k env address n =
      td_accept_pages env address n PAGE_SIZE_4K := by
  intro n
  induction n with
  | zero => intro address; rfl
  | succ n ih =>
    intro address
    have h4 : ¬ (PAGE_SIZE_4K = PAGE_SIZE_2M) := by decide
    rw [td_accept_pages_4k, td_accept_pages]
    simp only [if_neg h4]
    cases henv : tdcall_accept_page env (address ||| 0) with
    | none => simp only [ih]
    | some e =>
      cases e with
      | general r => rfl
      | LeafSpecific c =>
        by_cases hc : c = TDCALL_STATUS_PAGE_SIZE_MISMATCH
        · simp only [if_pos hc, if_neg h4]
        · simp only [if_neg hc]
          by_cases ha : c = TDCALL_STATUS_PAGE_ALREADY_ACCEPTED
          · simp only [if_pos ha, ih]
          · simp only [if_neg ha]

/-- Attempts `l` tile the address range from `s` to `e`: each attempt starts
exactly where the previous one ended, sizes are positive, and the last one
ends exactly at `e`. -/
def chain : List Attempt → Nat → Nat → Prop
  | [], s, e => s = e
  | a :: l, s, e => a.addr = s ∧ 0 < a.size ∧ chain l (s + a.size) e

theorem chain_append {l1 l2 : List Attempt} {s m e : Nat}
    (h1 : chain l1 s m) (h2 : chain l2 m e) : chain (l1 ++ l2) s e := by
  induction l1 generalizing s with
  | nil => cases h1; simpa using h2
  | cons a l ih =>
    obtain ⟨ha, hs, hc⟩ := h1
    exact ⟨ha, hs, ih hc⟩

theorem chain_le {l : List Attempt} {s e : Nat} (h : chain l s e) : s ≤ e := by
  induction l generalizing s with
  | nil => exact Nat.le_of_eq h
  | cons a l ih =>
    obtain ⟨_, _, hc⟩ := h
    exact Nat.le_trans (Nat.le_add_right s a.size) (ih hc)

theorem chain_mem_bounds {l : List Attempt} {s e : Nat} {a : Attempt}
    (h : chain l s e) (ha : a ∈ l) : s ≤ a.addr ∧ a.addr + a.size ≤ e := by
  induction l generalizing s with
  | nil => cases ha
  | cons b l ih =>
    obtain ⟨hb, hbs, hc⟩ := h
    rcases List.mem_cons.mp ha with rfl | hmem
    · exact ⟨Nat.le_of_eq hb.symm, by rw [hb]; exact chain_le hc⟩
    · have := ih hc hmem
      exact ⟨Nat.le_trans (Nat.le_add_right s b.size) this.1, this.2⟩

theorem chain_cover {l : List Attempt} {s e : Nat} (h : chain l s e) (x : Nat) :
    (s ≤ x ∧ x < e) ↔ ∃ a, a ∈ l ∧ a.addr ≤ x ∧ x < a.addr + a.size := by
  induction l generalizing s with
  | nil =>
    cases h
    constructor
    · rintro ⟨h1, h2⟩; omega
    · rintro ⟨a, ha, -⟩; cases ha
  | cons a l ih =>
    obtain ⟨ha, hs, hc⟩ := h
    subst ha
    constructor
    · rintro ⟨h1, h2⟩
      by_cases hx : x < a.addr + a.size
      · exact ⟨a, List.mem_cons_self a l, h1, hx⟩
      · have hx2 : a.addr + a.size ≤ x := Nat.le_of_not_lt hx
        obtain ⟨b, hb, hbx⟩ := (ih hc).mp ⟨hx2, h2⟩
        exact ⟨b, List.mem_cons_of_mem a hb, hbx⟩
    · rintro ⟨b, hb, hb1, hb2⟩
      rcases List.mem_cons.mp hb with rfl | hmem
      · exact ⟨hb1, Nat.lt_of_lt_of_le hb2 (chain_le hc)⟩
      · have hbnd := chain_mem_bounds hc hmem
        have := (ih hc).mpr ⟨b, hmem, hb1, hb2⟩
        exact ⟨Nat.le_trans (Nat.le_add_right a.addr a.size) this.1, this.2⟩

theorem chain_unique {l : List Attempt} {s e : Nat} (h : chain l s e)
    {a b : Attempt} {x : Nat} (ha : a ∈ l) (hb : b ∈ l)
    (hax1 : a.addr ≤ x) (hax2 : x < a.addr + a.size)
    (hbx1 : b.addr ≤ x) (hbx2 : x < b.addr + b.size) : a = b := by
  induction l generalizing s with
  | nil => cases ha
  | cons c l ih =>
    obtain ⟨hc1, hc2, hc3⟩ := h
    rcases List.mem_cons.mp ha with rfl | hamem <;>
      rcases List.mem_cons.mp hb with rfl | hbmem
    · rfl
    · have := (chain_mem_bounds hc3 hbmem).1
      omega
    · have := (chain_mem_bounds hc3 hamem).1
      omega
    · exact ih hc3 hamem hbmem

/-- Under an environment in which every accept attempt succeeds,
`td_accept_pages` attempts exactly the `pages` consecutive pages of size
`page_size` starting at `address`, in order, and returns normally. -/
theorem td_accept_pages_allOk {env : AcceptEnv} (henv : ∀ x, env x = none) :
    ∀ n address page_size, td_accept_pages env address n page_size =
      ((List.range n).map fun i => Attempt.mk (address + page_size * i) page_size,
        PagesOutcome.ok) := by
  intro n
  induction n with
  | zero => intro address page_size; simp [td_accept_pages]
  | succ n ih =>
    intro address page_size
    rw [td_accept_pages]
    simp only [tdcall_accept_page, henv, ih, List.range_succ_eq_map, List.map_cons,
      List.map_map, Prod.mk.injEq]
    refine ⟨?_, trivial⟩
    have h0 : address + page_size * 0 = address := by ring
    rw [h0]
    congr 1
    apply List.map_congr_left
    intro i _
    simp only [Function.comp, Attempt.mk.injEq, Nat.succ_eq_add_one]
    constructor
    · ring
    · trivial

/-- The consecutive pages produced by a successful `td_accept_pages` call
tile the range from `address` to `address + n * page_size`. -/
theorem chain_map_range (a size n : Nat) (hs : 0 < size) :
    chain ((List.range n).map fun i => Attempt.mk (a + size * i) size)
      a (a + n * size) := by
  induction n generalizing a with
  | zero => simp [chain]
  | succ n ih =>
    rw [List.range_succ_eq_map, List.map_cons, List.map_map]
    refine ⟨by simp, hs, ?_⟩
    have harith : ∀ i : Nat, a + size * (i + 1) = (a + size) + size * i := by
      intro i; ring
    have hmap : (List.range n).map ((fun i => Attempt.mk (a + size * i) size) ∘ (· + 1)) =
        (List.range n).map fun i => Attempt.mk ((a + size) + size * i) size := by
      apply List.map_congr_left
      intro i _
      simp [Function.comp, harith i]
    rw [hmap]
    have hend : a + (n + 1) * size = (a + size) + n * size := by ring
    have := ih (a + size)
    simpa [hend] using this

theorem and_mask_2m (s : Nat) : s &&& (PAGE_SIZE_2M - 1) = s % PAGE_SIZE_2M := by
  have h : PAGE_SIZE_2M = 2 ^ 21 := by decide
  rw [h]
  exact Nat.and_pow_two_sub_one_eq_mod s 21

theorem and_mask_4k (s : Nat) : s &&& (PAGE_SIZE_4K - 1) = s % PAGE_SIZE_4K := by
  have h : PAGE_SIZE_4K = 2 ^ 12 := by decide
  rw [h]
  exact Nat.and_pow_two_sub_one_eq_mod s 12

/-- With every attempt succeeding and a 4KB-aligned cursor and range end, the
acceptance loop tiles exactly the remaining range, leaves the cursor at the
range end, and returns normally; the fuel hypothesis is discharged at the
top-level call. -/
theorem td_accept_memory_loop_allOk {env : AcceptEnv} (henv : ∀ x, env x = none)
    (address len : Nat) :
    ∀ fuel start, start % PAGE_SIZE_4K = 0 → (address + len) % PAGE_SIZE_4K = 0 →
      start ≤ address + len →
      address + len - start ≤ fuel * PAGE_SIZE_4K →
      chain (td_accept_memory_loop env address len start fuel).1 start (address + len) ∧
      (td_accept_memory_loop env address len start fuel).2.1 = address + len ∧
      (td_accept_memory_loop env address len start fuel).2.2 = MemOutcome.ok := by
  intro fuel
  induction fuel with
  | zero =>
    intro start h1 h2 h3 h4
    have hse : start = address + len := by
      simp only [PAGE_SIZE_4K] at h4
      omega
    rw [td_accept_memory_loop]
    exact ⟨hse, hse, rfl⟩
  | succ fuel ih =>
    intro start h1 h2 h3 h4
    rw [td_accept_memory_loop]
    by_cases hlt : start < address + len
    · rw [if_pos hlt]
      by_cases hc1 : address + len - start ≥ PAGE_SIZE_2M ∧
          start &&& (PAGE_SIZE_2M - 1) = 0
      · rw [if_pos hc1]
        simp only [td_accept_pages_allOk henv]
        set np := (address + len - start) >>> 21 with hnp
        have hshr : np = (address + len - start) / 2 ^ 21 :=
          Nat.shiftRight_eq_div_pow _ 21
        have hshl : np <<< 21 = np * 2 ^ 21 := Nat.shiftLeft_eq _ 21
        have hnp1 : 1 ≤ np := by
          rw [hshr]
          have h2m : PAGE_SIZE_2M = 2 ^ 21 := by decide
          have hge : 2 ^ 21 ≤ address + len - start := by
            have := hc1.1
            rw [h2m] at this
            exact this
          exact (Nat.one_le_div_iff (by norm_num)).mpr hge
        have hadv_le : np * 2 ^ 21 ≤ address + len - start := by
          rw [hshr]
          exact Nat.div_mul_le_self _ _
        have hadv_mod : (np * 2 ^ 21) % PAGE_SIZE_4K = 0 := by
          have hrw : np * 2 ^ 21 = np * 2 ^ 9 * PAGE_SIZE_4K := by
            simp only [PAGE_SIZE_4K]
            ring
          rw [hrw]
          exact Nat.mul_mod_left _ _
        have hadv_ge : PAGE_SIZE_4K ≤ np * 2 ^ 21 := by
          have h1le : 2 ^ 21 ≤ np * 2 ^ 21 := Nat.le_mul_of_pos_left _ hnp1
          have : PAGE_SIZE_4K ≤ 2 ^ 21 := by decide
          omega
        have hmod' : (start + np <<< 21) % PAGE_SIZE_4K = 0 := by
          rw [hshl]
          simp only [PAGE_SIZE_4K] at h1 hadv_mod ⊢
          omega
        have hstart' : start + np <<< 21 ≤ address + len := by
          rw [hshl]
          omega
        have hfuel' : address + len - (start + np <<< 21) ≤ fuel * PAGE_SIZE_4K := by
          rw [hshl]
          simp only [PAGE_SIZE_4K] at h4 hadv_ge ⊢
          omega
        obtain ⟨hch, hfin, hok⟩ := ih (start + np <<< 21) hmod' h2 hstart' hfuel'
        refine ⟨?_, hfin, hok⟩
        apply chain_append ?_ hch
        have hcmr := chain_map_range start PAGE_SIZE_2M np (by decide)
        have heq : start + np * PAGE_SIZE_2M = start + np <<< 21 := by
          rw [hshl]
          have h2m : PAGE_SIZE_2M = 2 ^ 21 := by decide
          rw [h2m, Nat.mul_comm]
        rw [heq] at hcmr
        exact hcmr
      · rw [if_neg hc1]
        have hc2 : address + len - start ≥ PAGE_SIZE_4K ∧
            start &&& (PAGE_SIZE_4K - 1) = 0 := by
          constructor
          · simp only [PAGE_SIZE_4K] at h1 h2 ⊢
            omega
          · rw [and_mask_4k]
            exact h1
        rw [if_pos hc2]
        simp only [td_accept_pages_allOk henv]
        have hmod' : (start + PAGE_SIZE_4K) % PAGE_SIZE_4K = 0 := by
          simp only [PAGE_SIZE_4K] at h1 ⊢
          omega
        have hstart' : start + PAGE_SIZE_4K ≤ address + len := by
          have := hc2.1
          omega
        have hfuel' : address + len - (start + PAGE_SIZE_4K) ≤ fuel * PAGE_SIZE_4K := by
          simp only [PAGE_SIZE_4K] at h4 ⊢
          omega
        obtain ⟨hch, hfin, hok⟩ := ih (start + PAGE_SIZE_4K) hmod' h2 hstart' hfuel'
        refine ⟨?_, hfin, hok⟩
        apply chain_append ?_ hch
        have hcmr := chain_map_range start PAGE_SIZE_4K 1 (by decide)
        simpa using hcmr
    · rw [if_neg hlt]
      have hse : start = address + len := by omega
      exact ⟨hse, hse, rfl⟩

/-- A cursor that is not 4KB-aligned fails both granule guards at once, so
the very next loop iteration takes the fatal `else` branch, whatever the
environment answers. -/
theorem td_accept_memory_loop_start_misaligned (env : AcceptEnv)
    (address len start fuel : Nat) (h1 : start % PAGE_SIZE_4K ≠ 0)
    (hlt : start < address + len) (hf : 0 < fuel) :
    (td_accept_memory_loop env address len start fuel).2.2 =
      MemOutcome.memPanic address len := by
  obtain ⟨f, rfl⟩ : ∃ f, fuel = f + 1 := ⟨fuel - 1, by omega⟩
  rw [td_accept_memory_loop, if_pos hlt]
  have hc1 : ¬(address + len - start ≥ PAGE_SIZE_2M ∧
      start &&& (PAGE_SIZE_2M - 1) = 0) := by
    rintro ⟨-, halign⟩
    rw [and_mask_2m] at halign
    simp only [PAGE_SIZE_2M] at halign
    simp only [PAGE_SIZE_4K] at h1
    omega
  have hc2 : ¬(address + len - start ≥ PAGE_SIZE_4K ∧
      start &&& (PAGE_SIZE_4K - 1) = 0) := by
    rintro ⟨-, halign⟩
    rw [and_mask_4k] at halign
    exact h1 halign
  rw [if_neg hc1, if_neg hc2]

/-- With a 4KB-aligned cursor but a range end that is not 4KB-aligned, the
loop can never return normally: the cursor stays 4KB-aligned, so it never
hits the end exactly, and the leftover tail below 4KB trips the fatal
branch (unless a page-accept panic aborts the call earlier). -/
theorem td_accept_memory_loop_end_misaligned (env : AcceptEnv) (address len : Nat) :
    ∀ fuel start, start % PAGE_SIZE_4K = 0 → (address + len) % PAGE_SIZE_4K ≠ 0 →
      start < address + len → address + len - start ≤ fuel * PAGE_SIZE_4K →
      (td_accept_memory_loop env address len start fuel).2.2 ≠ MemOutcome.ok := by
  intro fuel
  induction fuel with
  | zero =>
    intro start h1 h2 hlt h4
    simp only [PAGE_SIZE_4K] at h4
    omega
  | succ fuel ih =>
    intro start h1 h2 hlt h4
    rw [td_accept_memory_loop, if_pos hlt]
    by_cases hc1 : address + len - start ≥ PAGE_SIZE_2M ∧
        start &&& (PAGE_SIZE_2M - 1) = 0
    · rw [if_pos hc1]
      simp only []
      split
      · set np := (address + len - start) >>> 21 with hnp
        have hshr : np = (address + len - start) / 2 ^ 21 :=
          Nat.shiftRight_eq_div_pow _ 21
        have hshl : np <<< 21 = np * 2 ^ 21 := Nat.shiftLeft_eq _ 21
        have hnp1 : 1 ≤ np := by
          rw [hshr]
          have h2m : PAGE_SIZE_2M = 2 ^ 21 := by decide
          have hge : 2 ^ 21 ≤ address + len - start := by
            have := hc1.1
            rw [h2m] at this
            exact this
          exact (Nat.one_le_div_iff (by norm_num)).mpr hge
        have hadv_le : np * 2 ^ 21 ≤ address + len - start := by
          rw [hshr]
          exact Nat.div_mul_le_self _ _
        have hadv_mod : (np * 2 ^ 21) % PAGE_SIZE_4K = 0 := by
          have hrw : np * 2 ^ 21 = np * 2 ^ 9 * PAGE_SIZE_4K := by
            simp only [PAGE_SIZE_4K]
            ring
          rw [hrw]
          exact Nat.mul_mod_left _ _
        have hadv_ge : PAGE_SIZE_4K ≤ np * 2 ^ 21 := by
          have h1le : 2 ^ 21 ≤ np * 2 ^ 21 := Nat.le_mul_of_pos_left _ hnp1
          have : PAGE_SIZE_4K ≤ 2 ^ 21 := by decide
          omega
        have hmod' : (start + np <<< 21) % PAGE_SIZE_4K = 0 := by
          rw [hshl]
          simp only [PAGE_SIZE_4K] at h1 hadv_mod ⊢
          omega
        have hlt' : start + np <<< 21 < address + len := by
          rw [hshl]
          have hne : start + np * 2 ^ 21 ≠ address + len := by
            intro hcontra
            rw [hshl] at hmod'
            rw [hcontra] at hmod'
            exact h2 hmod'
          omega
        have hfuel' : address + len - (start + np <<< 21) ≤ fuel * PAGE_SIZE_4K := by
          rw [hshl]
          simp only [PAGE_SIZE_4K] at h4 hadv_ge ⊢
          omega
        exact ih (start + np <<< 21) hmod' h2 hlt' hfuel'
      · simp
    · rw [if_neg hc1]
      by_cases hc2 : address + len - start ≥ PAGE_SIZE_4K ∧
          start &&& (PAGE_SIZE_4K - 1) = 0
      · rw [if_pos hc2]
        simp only []
        split
        · have hmod' : (start + PAGE_SIZE_4K) % PAGE_SIZE_4K = 0 := by
            simp only [PAGE_SIZE_4K] at h1 ⊢
            omega
          have hlt' : start + PAGE_SIZE_4K < address + len := by
            have hne : start + PAGE_SIZE_4K ≠ address + len := by
              intro hcontra
              rw [hcontra] at hmod'
              exact h2 hmod'
            have := hc2.1
            omega
          have hfuel' : address + len - (start + PAGE_SIZE_4K) ≤ fuel * PAGE_SIZE_4K := by
            simp only [PAGE_SIZE_4K] at h4 ⊢
            omega
          exact ih (start + PAGE_SIZE_4K) hmod' h2 hlt' hfuel'
        · simp
      · rw [if_neg hc2]
        simp

set_option maxRecDepth 100000

theorem attempts_range_cons (a size n : Nat) :
    Attempt.mk a size ::
      ((List.range n).map fun i => Attempt.mk (a + size + size * i) size) =
    (List.range (n + 1)).map fun i => Attempt.mk (a + size * i) size := by
  rw [List.range_succ_eq_map, List.map_cons, List.map_map]
  refine congrArg₂ List.cons ?_ ?_
  · simp
  · apply List.map_congr_left
    intro i _
    simp only [Function.comp, Attempt.mk.injEq, Nat.succ_eq_add_one]
    constructor
    · ring
    · trivial

/-- When every one of the `n` 4KB attempts starting at `a` either succeeds
or reports "already accepted", the 4KB pass attempts exactly those `n`
consecutive pages, in order, and returns normally. -/
theorem td_accept_pages_4k_good {env : AcceptEnv} :
    ∀ n a, (∀ i, i < n → env (a + PAGE_SIZE_4K * i) = none ∨
        env (a + PAGE_SIZE_4K * i) =
          some (TdCallError.LeafSpecific TDCALL_STATUS_PAGE_ALREADY_ACCEPTED)) →
    td_accept_pages_4k env a n =
      ((List.range n).map fun i => Attempt.mk (a + PAGE_SIZE_4K * i) PAGE_SIZE_4K,
        PagesOutcome.ok) := by
  intro n
  induction n with
  | zero => intro a _; simp [td_accept_pages_4k]
  | succ n ih =>
    intro a h
    have h0 := h 0 (by omega)
    simp only [Nat.mul_zero, Nat.add_zero] at h0
    have htail : ∀ i, i < n → env (a + PAGE_SIZE_4K + PAGE_SIZE_4K * i) = none ∨
        env (a + PAGE_SIZE_4K + PAGE_SIZE_4K * i) =
          some (TdCallError.LeafSpecific TDCALL_STATUS_PAGE_ALREADY_ACCEPTED) := by
      intro i hi
      have harr : a + PAGE_SIZE_4K + PAGE_SIZE_4K * i =
          a + PAGE_SIZE_4K * (i + 1) := by ring
      rw [harr]
      exact h (i + 1) (by omega)
    have hne : TDCALL_STATUS_PAGE_ALREADY_ACCEPTED ≠
        TDCALL_STATUS_PAGE_SIZE_MISMATCH := by decide
    rw [td_accept_pages_4k]
    rcases h0 with h0 | h0
    · simp only [tdcall_accept_page, Nat.or_zero, h0, ih (a + PAGE_SIZE_4K) htail]
      rw [← attempts_range_cons]
    · simp only [tdcall_accept_page, Nat.or_zero, h0, if_neg hne,
        ih (a + PAGE_SIZE_4K) htail]
      rw [if_true, ← attempts_range_cons]

/-- C1 (as amended): `td_accept_memory(0x100000, 0x200000)` with every
attempt succeeding issues no 2MB accept attempt and exactly 512 4KB accept
attempts (the base `0x100000` is 1MB- but not 2MB-aligned, so the engine
never selects the 2MB granule), and the cursor ends at `0x300000` with the
range exhausted and a normal return. -/
theorem c1_accept_1MB_base_range :
    (((td_accept_memory acceptAllOk 0x100000 0x200000).1.filter
        (fun a => a.size == PAGE_SIZE_2M)).length = 0) ∧
    (((td_accept_memory acceptAllOk 0x100000 0x200000).1.filter
        (fun a => a.size == PAGE_SIZE_4K)).length = 512) ∧
    (td_accept_memory acceptAllOk 0x100000 0x200000).2.1 = 0x300000 ∧
    (td_accept_memory acceptAllOk 0x100000 0x200000).2.2 = MemOutcome.ok := by
  decide

/-- C1 counterexample: at the claim's input the engine does not issue
exactly one 2MB accept attempt (it issues none, because `0x100000` is not
2MB-aligned), so the claim as stated is false. -/
theorem c1_counterexample :
    ¬(((td_accept_memory acceptAllOk 0x100000 0x200000).1.filter
        (fun a => a.size == PAGE_SIZE_2M)).length = 1 ∧
      (td_accept_memory acceptAllOk 0x100000 0x200000).2.1 = 0x300000) := by
  decide

/-- C2: for every 4KB-aligned `base` and `len`, with every per-page accept
attempt succeeding, every byte of `[base, base + len)` lies in exactly one
attempted page and every attempted page lies inside the range: the attempts
cover the range with no gaps and no overlaps. -/
theorem c2_coverage_exact {env : AcceptEnv} (henv : ∀ x, env x = none)
    (base len : Nat) (hbase : base % PAGE_SIZE_4K = 0)
    (hlen : len % PAGE_SIZE_4K = 0) :
    ∀ x, (base ≤ x ∧ x < base + len) ↔
      ∃! a : Attempt, a ∈ (td_accept_memory env base len).1 ∧
        a.addr ≤ x ∧ x < a.addr + a.size := by
  intro x
  have hend : (base + len) % PAGE_SIZE_4K = 0 := by
    simp only [PAGE_SIZE_4K] at hbase hlen ⊢
    omega
  have hfuel : base + len - base ≤ len * PAGE_SIZE_4K := by
    simp only [PAGE_SIZE_4K]
    omega
  obtain ⟨hch, -, -⟩ :=
    td_accept_memory_loop_allOk henv base len len base hbase hend
      (Nat.le_add_right base len) hfuel
  constructor
  · intro hx
    obtain ⟨a, ha, hax1, hax2⟩ := (chain_cover hch x).mp hx
    refine ⟨a, ⟨ha, hax1, hax2⟩, ?_⟩
    rintro b ⟨hb, hbx1, hbx2⟩
    exact chain_unique hch hb ha hbx1 hbx2 hax1 hax2
  · rintro ⟨a, ⟨ha, hax1, hax2⟩, -⟩
    exact (chain_cover hch x).mpr ⟨a, ha, hax1, hax2⟩

/-- Witness for C2 at `base = 0x1000`, `len = 0x3000` under the all-success
environment. -/
theorem c2_coverage_exact_witness :
    (∀ x, acceptAllOk x = none) ∧ 0x1000 % PAGE_SIZE_4K = 0 ∧
    0x3000 % PAGE_SIZE_4K = 0 ∧
    (∀ x, ((0x1000 : Nat) ≤ x ∧ x < 0x1000 + 0x3000) ↔
      ∃! a : Attempt, a ∈ (td_accept_memory acceptAllOk 0x1000 0x3000).1 ∧
        a.addr ≤ x ∧ x < a.addr + a.size) :=
  ⟨fun _ => rfl, by decide, by decide,
    c2_coverage_exact (fun _ => rfl) 0x1000 0x3000 (by decide) (by decide)⟩

/-- C4 (as amended): a call whose `base` is not 4KB-aligned (with nonzero
`len`) or whose `len` is not 4KB-aligned never completes normally — the
engine panics; but a zero-length call, though malformed per the spec,
completes normally without issuing any accept attempt. -/
theorem c4_malformed_behavior (env : AcceptEnv) (base len : Nat) :
    ((base % PAGE_SIZE_4K ≠ 0 ∧ 0 < len) ∨ len % PAGE_SIZE_4K ≠ 0 →
      (td_accept_memory env base len).2.2 ≠ MemOutcome.ok) ∧
    td_accept_memory env base 0 = ([], base, MemOutcome.ok) := by
  constructor
  · intro h
    by_cases hb : base % PAGE_SIZE_4K = 0
    · have hl : len % PAGE_SIZE_4K ≠ 0 := by
        rcases h with ⟨hb2, -⟩ | hl
        · exact absurd hb hb2
        · exact hl
      have hlen0 : len ≠ 0 := by
        intro h0
        rw [h0] at hl
        exact hl (Nat.zero_mod _)
      have hend : (base + len) % PAGE_SIZE_4K ≠ 0 := by
        simp only [PAGE_SIZE_4K] at hb hl ⊢
        omega
      have hfuel : base + len - base ≤ len * PAGE_SIZE_4K := by
        simp only [PAGE_SIZE_4K]
        omega
      exact td_accept_memory_loop_end_misaligned env base len len base hb hend
        (by omega) hfuel
    · have hlen : 0 < len := by
        rcases h with ⟨-, hpos⟩ | hl
        · exact hpos
        · rcases Nat.eq_zero_or_pos len with h0 | hpos
          · rw [h0] at hl
            exact absurd (Nat.zero_mod _) hl
          · exact hpos
      have := td_accept_memory_loop_start_misaligned env base len base len hb
        (by omega) hlen
      intro hok
      rw [td_accept_memory] at hok
      rw [this] at hok
      cases hok
  · rfl

/-- Witness for C4 at `base = 1`, `len = 1` (misaligned, panics) and
`base = 1`, `len = 0` (zero length, completes normally). -/
theorem c4_malformed_behavior_witness :
    (((1 : Nat) % PAGE_SIZE_4K ≠ 0 ∧ (0 : Nat) < 1) ∨
      (1 : Nat) % PAGE_SIZE_4K ≠ 0) ∧
    (td_accept_memory acceptAllOk 1 1).2.2 ≠ MemOutcome.ok ∧
    td_accept_memory acceptAllOk 1 0 = ([], 1, MemOutcome.ok) :=
  ⟨by decide, (c4_malformed_behavior acceptAllOk 1 1).1 (by decide),
    (c4_malformed_behavior acceptAllOk 1 0).2⟩

/-- C4 counterexample: `td_accept_memory(1, 0)` is malformed in the claim's
sense twice over (`base` not 4KB-aligned, `len` zero), yet the engine
completes normally instead of panicking: the `while start < end` loop body
never runs. -/
theorem c4_counterexample :
    ((1 : Nat) % PAGE_SIZE_4K ≠ 0 ∧ (0 : Nat) % PAGE_SIZE_4K = 0) ∧
    td_accept_memory acceptAllOk 1 0 = ([], 1, MemOutcome.ok) := by
  decide

/-- C3: when the 2MB accept attempt at `A` reports the leaf-specific "page
size mismatch" code and the 512 4KB attempts inside that block each succeed
or report "already accepted", `td_accept_pages` follows the 2MB attempt
with exactly the 512 4KB attempts `A + i * 4KB` (`i < 512`) — which tile
exactly the original 2MB block — and then continues with the next 2MB
block, so the call reports success whenever the remaining blocks do. -/
theorem c3_mismatch_splits_to_512_4k (env : AcceptEnv) (A n : Nat)
    (hmis : env (A ||| 1) =
      some (TdCallError.LeafSpecific TDCALL_STATUS_PAGE_SIZE_MISMATCH))
    (h4k : ∀ i, i < 512 → env (A + PAGE_SIZE_4K * i) = none ∨
        env (A + PAGE_SIZE_4K * i) =
          some (TdCallError.LeafSpecific TDCALL_STATUS_PAGE_ALREADY_ACCEPTED)) :
    td_accept_pages env A (n + 1) PAGE_SIZE_2M =
      (Attempt.mk A PAGE_SIZE_2M ::
        (((List.range 512).map fun i =>
            Attempt.mk (A + PAGE_SIZE_4K * i) PAGE_SIZE_4K) ++
          (td_accept_pages env (A + PAGE_SIZE_2M) n PAGE_SIZE_2M).1),
        (td_accept_pages env (A + PAGE_SIZE_2M) n PAGE_SIZE_2M).2) ∧
    chain ((List.range 512).map fun i =>
        Attempt.mk (A + PAGE_SIZE_4K * i) PAGE_SIZE_4K) A (A + PAGE_SIZE_2M) ∧
    ((td_accept_pages env (A + PAGE_SIZE_2M) n PAGE_SIZE_2M).2 = PagesOutcome.ok →
      (td_accept_pages env A (n + 1) PAGE_SIZE_2M).2 = PagesOutcome.ok) := by
  have hmain : td_accept_pages env A (n + 1) PAGE_SIZE_2M =
      (Attempt.mk A PAGE_SIZE_2M ::
        (((List.range 512).map fun i =>
            Attempt.mk (A + PAGE_SIZE_4K * i) PAGE_SIZE_4K) ++
          (td_accept_pages env (A + PAGE_SIZE_2M) n PAGE_SIZE_2M).1),
        (td_accept_pages env (A + PAGE_SIZE_2M) n PAGE_SIZE_2M).2) := by
    rw [td_accept_pages]
    simp only [tdcall_accept_page, if_true, eq_self_iff_true, hmis,
      td_accept_pages_4k_good 512 A h4k, List.cons_append]
  refine ⟨hmain, ?_, ?_⟩
  · have hcmr := chain_map_range A PAGE_SIZE_4K 512 (by decide)
    have heq : A + 512 * PAGE_SIZE_4K = A + PAGE_SIZE_2M := by
      simp only [PAGE_SIZE_4K, PAGE_SIZE_2M]
    rw [heq] at hcmr
    exact hcmr
  · intro hok
    rw [hmain]
    exact hok

/-- Witness for C3: under `envC3` the single-block call at `A = 0x200000`
splits into the 512 4KB attempts and reports success. -/
theorem c3_mismatch_splits_witness :
    (envC3 (0x200000 ||| 1) =
      some (TdCallError.LeafSpecific TDCALL_STATUS_PAGE_SIZE_MISMATCH)) ∧
    ((∀ i, i < 512 → envC3 (0x200000 + PAGE_SIZE_4K * i) = none ∨
        envC3 (0x200000 + PAGE_SIZE_4K * i) =
          some (TdCallError.LeafSpecific TDCALL_STATUS_PAGE_ALREADY_ACCEPTED))) ∧
    (td_accept_pages envC3 0x200000 (0 + 1) PAGE_SIZE_2M =
      (Attempt.mk 0x200000 PAGE_SIZE_2M ::
        (((List.range 512).map fun i =>
            Attempt.mk (0x200000 + PAGE_SIZE_4K * i) PAGE_SIZE_4K) ++
          (td_accept_pages envC3 (0x200000 + PAGE_SIZE_2M) 0 PAGE_SIZE_2M).1),
        (td_accept_pages envC3 (0x200000 + PAGE_SIZE_2M) 0 PAGE_SIZE_2M).2) ∧
      chain ((List.range 512).map fun i =>
          Attempt.mk (0x200000 + PAGE_SIZE_4K * i) PAGE_SIZE_4K)
        0x200000 (0x200000 + PAGE_SIZE_2M) ∧
      ((td_accept_pages envC3 (0x200000 + PAGE_SIZE_2M) 0 PAGE_SIZE_2M).2 =
          PagesOutcome.ok →
        (td_accept_pages envC3 0x200000 (0 + 1) PAGE_SIZE_2M).2 =
          PagesOutcome.ok)) :=
  ⟨by decide, by decide,
    c3_mismatch_splits_to_512_4k envC3 0x200000 0 (by decide) (by decide)⟩

/-- C6: when an accept attempt fails with the leaf-specific "already
accepted" code, `td_accept_pages` treats it exactly as a success: the
attempt is recorded, no panic is raised, and the loop continues with the
next page, so the call's result is the attempt followed by the untouched
continuation; in particular a single already-accepted page yields a plain
normal return, making re-acceptance idempotent. -/
theorem c6_already_accepted_is_success (env : AcceptEnv)
    (address n page_size : Nat)
    (h : env (address ||| (if page_size = PAGE_SIZE_2M then 1 else 0)) =
      some (TdCallError.LeafSpecific TDCALL_STATUS_PAGE_ALREADY_ACCEPTED)) :
    td_accept_pages env address (n + 1) page_size =
      (Attempt.mk address page_size ::
          (td_accept_pages env (address + page_size) n page_size).1,
        (td_accept_pages env (address + page_size) n page_size).2) ∧
    td_accept_pages env address 1 page_size =
      ([Attempt.mk address page_size], PagesOutcome.ok) := by
  have hne : TDCALL_STATUS_PAGE_ALREADY_ACCEPTED ≠
      TDCALL_STATUS_PAGE_SIZE_MISMATCH := by decide
  have key : ∀ m : Nat, td_accept_pages env address (m + 1) page_size =
      (Attempt.mk address page_size ::
          (td_accept_pages env (address + page_size) m page_size).1,
        (td_accept_pages env (address + page_size) m page_size).2) := by
    intro m
    rw [td_accept_pages]
    simp only [tdcall_accept_page, h, if_neg hne, eq_self_iff_true, if_true]
  refine ⟨key n, ?_⟩
  rw [key 0]
  rfl

/-- Witness for C6 under the all-already-accepted environment at address 0
with a 4KB page. -/
theorem c6_already_accepted_witness :
    (envAlready ((0 : Nat) ||| (if PAGE_SIZE_4K = PAGE_SIZE_2M then 1 else 0)) =
      some (TdCallError.LeafSpecific TDCALL_STATUS_PAGE_ALREADY_ACCEPTED)) ∧
    (td_accept_pages envAlready 0 (0 + 1) PAGE_SIZE_4K =
      (Attempt.mk 0 PAGE_SIZE_4K ::
          (td_accept_pages envAlready (0 + PAGE_SIZE_4K) 0 PAGE_SIZE_4K).1,
        (td_accept_pages envAlready (0 + PAGE_SIZE_4K) 0 PAGE_SIZE_4K).2) ∧
      td_accept_pages envAlready 0 1 PAGE_SIZE_4K =
        ([Attempt.mk 0 PAGE_SIZE_4K], PagesOutcome.ok)) :=
  ⟨by decide, c6_already_accepted_is_success envAlready 0 0 PAGE_SIZE_4K (by decide)⟩

/-- C7: when an accept attempt fails with any cause other than a
leaf-specific "page size mismatch" on a 2MB attempt or a leaf-specific
"already accepted" code — including every general-class error and a "page
size mismatch" reported on a non-2MB attempt — `td_accept_pages` panics at
once, naming the failing address and the attempted page size, issuing no
further attempts. -/
theorem c7_other_failures_panic (env : AcceptEnv) (address n page_size : Nat)
    (e : TdCallError)
    (h : env (address ||| (if page_size = PAGE_SIZE_2M then 1 else 0)) = some e)
    (hnotsplit : ¬(e = TdCallError.LeafSpecific TDCALL_STATUS_PAGE_SIZE_MISMATCH ∧
      page_size = PAGE_SIZE_2M))
    (hnotalready : e ≠ TdCallError.LeafSpecific TDCALL_STATUS_PAGE_ALREADY_ACCEPTED) :
    td_accept_pages env address (n + 1) page_size =
      ([Attempt.mk address page_size], PagesOutcome.panicked address page_size) := by
  rw [td_accept_pages]
  simp only [tdcall_accept_page, h]
  cases e with
  | general r => rfl
  | LeafSpecific c =>
    by_cases hc : c = TDCALL_STATUS_PAGE_SIZE_MISMATCH
    · subst hc
      have hps : ¬(page_size = PAGE_SIZE_2M) := fun hp => hnotsplit ⟨rfl, hp⟩
      simp only [eq_self_iff_true, if_true, if_neg hps]
    · have hca : ¬(c = TDCALL_STATUS_PAGE_ALREADY_ACCEPTED) := by
        intro hc2
        exact hnotalready (by rw [hc2])
      simp only [if_neg hc, if_neg hca]

/-- Witness for C7: a general-class failure on a 4KB attempt at address 0
panics naming address 0 and page size 4KB. -/
theorem c7_other_failures_witness :
    (envGeneralErr ((0 : Nat) |||
        (if PAGE_SIZE_4K = PAGE_SIZE_2M then 1 else 0)) =
      some (TdCallError.general 3)) ∧
    ¬((TdCallError.general 3 =
        TdCallError.LeafSpecific TDCALL_STATUS_PAGE_SIZE_MISMATCH) ∧
      PAGE_SIZE_4K = PAGE_SIZE_2M) ∧
    (TdCallError.general 3 ≠
      TdCallError.LeafSpecific TDCALL_STATUS_PAGE_ALREADY_ACCEPTED) ∧
    td_accept_pages envGeneralErr 0 (0 + 1) PAGE_SIZE_4K =
      ([Attempt.mk 0 PAGE_SIZE_4K], PagesOutcome.panicked 0 PAGE_SIZE_4K) :=
  ⟨by decide, by decide, by decide,
    c7_other_failures_panic envGeneralErr 0 0 PAGE_SIZE_4K
      (TdCallError.general 3) (by decide) (by decide) (by decide)⟩

/-- C5: on a successful `TDG.VP.INFO` call whose result register carries
width `w` in its low 6 bits, `td_shared_mask` returns `some (1 << (w - 1))`
exactly for `w ∈ {48, 52}` and `none` for every other width, which the
`SHARED_MASK` static initialization turns into the fatal `expect` panic. -/
theorem c5_shared_mask_width (env : TdcallEnv) (w : Nat)
    (hok : (env { rax := TDCALL_TDINFO }).1 = TDCALL_STATUS_SUCCESS)
    (hw : w = (env { rax := TDCALL_TDINFO }).2.rcx &&& 0x3f) :
    (w = 48 ∨ w = 52 → td_shared_mask env = some (1 <<< (w - 1))) ∧
    (¬(w = 48 ∨ w = 52) → td_shared_mask env = none ∧
      SHARED_MASK env = SharedMaskInit.fatal) := by
  have hinfo : tdcall_get_td_info env = Except.ok
      { gpaw := (env { rax := TDCALL_TDINFO }).2.rcx &&& 0x3f,
        attributes := (env { rax := TDCALL_TDINFO }).2.rdx,
        max_vcpus := ((env { rax := TDCALL_TDINFO }).2.r8 >>> 32) % 2 ^ 32,
        num_vcpus := (env { rax := TDCALL_TDINFO }).2.r8 % 2 ^ 32 } := by
    rw [tdcall_get_td_info]
    simp only [hok, ne_eq, not_true_eq_false, if_false]
  have hlt : w < 64 := by
    rw [hw]
    have h6 : (env { rax := TDCALL_TDINFO }).2.rcx &&& 0x3f < 2 ^ 6 :=
      Nat.and_lt_two_pow _ (show (0x3f : Nat) < 2 ^ 6 by decide)
    have h64 : (2 : Nat) ^ 6 = 64 := by norm_num
    rw [h64] at h6
    exact h6
  have hgpaw : ((w &&& 0x3f) % 2 ^ 8) = w := by
    have h63 : w &&& 0x3f = w % 2 ^ 6 := Nat.and_pow_two_sub_one_eq_mod w 6
    have hw6 : w % 2 ^ 6 = w := Nat.mod_eq_of_lt (by omega)
    rw [h63, hw6]
    exact Nat.mod_eq_of_lt (by omega)
  have hmask : td_shared_mask env =
      (if w = 48 ∨ w = 52 then some (1 <<< (w - 1)) else none) := by
    rw [td_shared_mask, hinfo]
    simp only [← hw, hgpaw]
  constructor
  · intro hcase
    rw [hmask, if_pos hcase]
  · intro hcase
    have hnone : td_shared_mask env = none := by rw [hmask, if_neg hcase]
    refine ⟨hnone, ?_⟩
    rw [SHARED_MASK, hnone]

/-- Witness for C5 at width 48: the mask is `1 << 47`. -/
theorem c5_shared_mask_width_witness :
    ((envGpaw48 { rax := TDCALL_TDINFO }).1 = TDCALL_STATUS_SUCCESS) ∧
    ((48 : Nat) = (envGpaw48 { rax := TDCALL_TDINFO }).2.rcx &&& 0x3f) ∧
    (((48 : Nat) = 48 ∨ (48 : Nat) = 52 →
      td_shared_mask envGpaw48 = some (1 <<< (48 - 1))) ∧
    (¬((48 : Nat) = 48 ∨ (48 : Nat) = 52) → td_shared_mask envGpaw48 = none ∧
      SHARED_MASK envGpaw48 = SharedMaskInit.fatal)) :=
  ⟨rfl, by decide,
    c5_shared_mask_width envGpaw48 48 rfl (by decide)⟩

/-- C8: `tdvmcall_halt` requests the HLT leaf and passes
`interrupt_blocked = 1` exactly when bit 9 (the interrupt-enable flag) of
`RFLAGS` is clear, and `0` exactly when it is set. -/
theorem c8_halt_interrupt_blocked (rflags : Nat) :
    (tdvmcall_halt rflags).r11 = TDVMCALL_HALT ∧
    ((tdvmcall_halt rflags).r12 = 1 ↔ rflags.testBit 9 = false) ∧
    ((tdvmcall_halt rflags).r12 = 0 ↔ rflags.testBit 9 = true) := by
  have hbit : rflags &&& 0x200 = 0 ↔ rflags.testBit 9 = false := by
    have h512 : (0x200 : Nat) = 2 ^ 9 := by norm_num
    rw [h512, Nat.and_two_pow]
    cases h : rflags.testBit 9 <;> simp [h]
  have hr12 : (tdvmcall_halt rflags).r12 =
      if rflags &&& 0x200 = 0 then 1 else 0 := rfl
  refine ⟨rfl, ?_, ?_⟩
  · rw [hr12]
    by_cases hc : rflags &&& 0x200 = 0
    · simp only [if_pos hc]
      simp [hbit.mp hc]
    · simp only [if_neg hc]
      have htrue : rflags.testBit 9 = true := by
        cases h : rflags.testBit 9
        · exact absurd (hbit.mpr h) hc
        · rfl
      simp [htrue]
  · rw [hr12]
    by_cases hc : rflags &&& 0x200 = 0
    · simp only [if_pos hc]
      simp [hbit.mp hc]
    · simp only [if_neg hc]
      have htrue : rflags.testBit 9 = true := by
        cases h : rflags.testBit 9
        · exact absurd (hbit.mpr h) hc
        · rfl
      simp [htrue]

/-- C9: with the shared mask being the single bit `1 << k`,
`tdvmcall_mapgpa` passes `paddr` with that bit set when `shared = true` and
with that bit cleared when `shared = false`, leaving every other bit of
`paddr` unchanged; hence for a `paddr` whose mask bit is clear, converting
to shared and then back to private passes exactly the original address bit
pattern again. -/
theorem c9_mapgpa_round_trip (k paddr length : Nat) (hk : k < 64)
    (hp : paddr < 2 ^ 64) (hbit : paddr.testBit k = false) :
    ((tdvmcall_mapgpa_args (1 <<< k) true paddr length).r12 =
      (paddr ||| 1 <<< k)) ∧
    ((tdvmcall_mapgpa_args (1 <<< k) true paddr length).r12.testBit k = true) ∧
    ((tdvmcall_mapgpa_args (1 <<< k) false paddr length).r12.testBit k = false) ∧
    (∀ j, j ≠ k →
      (tdvmcall_mapgpa_args (1 <<< k) true paddr length).r12.testBit j =
        paddr.testBit j) ∧
    ((tdvmcall_mapgpa_args (1 <<< k) false
        ((tdvmcall_mapgpa_args (1 <<< k) true paddr length).r12) length).r12 =
      paddr) := by
  have hm : (1 <<< k : Nat) = 2 ^ k := by
    rw [Nat.shiftLeft_eq, Nat.one_mul]
  have hshared : (tdvmcall_mapgpa_args (1 <<< k) true paddr length).r12 =
      paddr ||| 1 <<< k := rfl
  have hprivate : ∀ q, (tdvmcall_mapgpa_args (1 <<< k) false q length).r12 =
      q &&& u64_not (1 <<< k) := fun _ => rfl
  refine ⟨hshared, ?_, ?_, ?_, ?_⟩
  · rw [hshared, hm]
    simp [Nat.testBit_or, Nat.testBit_two_pow]
  · rw [hprivate, hm, u64_not]
    simp only [Nat.testBit_and, Nat.testBit_xor, Nat.testBit_two_pow_sub_one,
      Nat.testBit_two_pow]
    simp [hk]
  · intro j hj
    rw [hshared, hm]
    simp [Nat.testBit_or, Nat.testBit_two_pow, Ne.symm hj]
  · rw [hprivate, hshared, hm, u64_not]
    apply Nat.eq_of_testBit_eq
    intro i
    simp only [Nat.testBit_and, Nat.testBit_or, Nat.testBit_xor,
      Nat.testBit_two_pow_sub_one, Nat.testBit_two_pow]
    by_cases hik : k = i
    · subst hik
      simp [hk, hbit]
    · have hdk : (decide (k = i)) = false := by simp [hik]
      simp only [hdk, Bool.or_false, Bool.xor_false]
      by_cases hi : i < 64
      · simp [hi]
      · have hple : paddr < 2 ^ i := by
          have : (2 : Nat) ^ 64 ≤ 2 ^ i := Nat.pow_le_pow_right (by norm_num) (by omega)
          omega
        simp [hi, Nat.testBit_lt_two_pow hple]

/-- Witness for C9 at `k = 47`, `paddr = 0x1000`, `length = 0x2000`. -/
theorem c9_mapgpa_round_trip_witness :
    ((47 : Nat) < 64) ∧ ((0x1000 : Nat) < 2 ^ 64) ∧
    ((0x1000 : Nat).testBit 47 = false) ∧
    ((tdvmcall_mapgpa_args (1 <<< 47) true 0x1000 0x2000).r12 =
      (0x1000 ||| 1 <<< 47)) ∧
    ((tdvmcall_mapgpa_args (1 <<< 47) false
        ((tdvmcall_mapgpa_args (1 <<< 47) true 0x1000 0x2000).r12) 0x2000).r12 =
      0x1000) :=
  ⟨by decide, by decide, by decide,
    (c9_mapgpa_round_trip 47 0x1000 0x2000 (by decide) (by decide) (by decide)).1,
    (c9_mapgpa_round_trip 47 0x1000 0x2000 (by decide) (by decide)
      (by decide)).2.2.2.2⟩

/-- C10: each of the three IO-read wrappers returns on every path — the
value handed back is always the first output register masked to the access
width (so it never exceeds the requested width), and the halt fallback is
invoked exactly when the raw status is nonzero, after which the wrapper
still falls through to return that masked value. -/
theorem c10_io_reads_return_masked (env : TdVmcallEnv) (port : Nat) :
    ((tdvmcall_io_read_8 env port).1 =
        (env (tdvmcall_io_read_args 1 port)).2.r11 &&& 0xff ∧
      (tdvmcall_io_read_8 env port).1 < 2 ^ 8 ∧
      (tdvmcall_io_read_8 env port).2 =
        ((env (tdvmcall_io_read_args 1 port)).1 != TDVMCALL_STATUS_SUCCESS)) ∧
    ((tdvmcall_io_read_16 env port).1 =
        (env (tdvmcall_io_read_args 2 port)).2.r11 &&& 0xffff ∧
      (tdvmcall_io_read_16 env port).1 < 2 ^ 16 ∧
      (tdvmcall_io_read_16 env port).2 =
        ((env (tdvmcall_io_read_args 2 port)).1 != TDVMCALL_STATUS_SUCCESS)) ∧
    ((tdvmcall_io_read_32 env port).1 =
        (env (tdvmcall_io_read_args 4 port)).2.r11 &&& 0xffffffff ∧
      (tdvmcall_io_read_32 env port).1 < 2 ^ 32 ∧
      (tdvmcall_io_read_32 env port).2 =
        ((env (tdvmcall_io_read_args 4 port)).1 != TDVMCALL_STATUS_SUCCESS)) := by
  refine ⟨⟨rfl, ?_, rfl⟩, ⟨rfl, ?_, rfl⟩, ⟨rfl, ?_, rfl⟩⟩
  · exact Nat.and_lt_two_pow _ (show (0xff : Nat) < 2 ^ 8 by decide)
  · exact Nat.and_lt_two_pow _ (show (0xffff : Nat) < 2 ^ 16 by decide)
  · exact Nat.and_lt_two_pow _ (show (0xffffffff : Nat) < 2 ^ 32 by decide)
